import Mathlib

/-!
Verification of the FamralPDF editor (a browser PDF editing application).

The development shallowly embeds the state and operations of the main editor
component (src/unnamed/part_001, `PDFEditTool`) and of the auxiliary tools
(merge, compress, sign).  Pixel and PDF coordinates are modelled as rationals,
page rotations and indices as integers; the random ids produced by the source
are passed in as parameters.  The field `rotation` of the source records is
spelled `rotationDeg` here.
-/

/-- Tool modes of the editor, from the `ToolMode` union type of the source. -/
inductive ToolMode
  | select | text | draw | rect | circle | image | highlight | eraser | line | arrow | redact
deriving DecidableEq, Repr

/-- Page metadata record (source interface `PageMetadata`): `originalIndex` is
`-1` for blank pages, and `rotationDeg` is the source field `rotation`. -/
structure PageMetadata where
  id : String
  originalIndex : Int
  rotationDeg : Int
deriving DecidableEq, Repr

/-- Overlay annotation element (source interface `EditorElement`).  Optional
source fields are `Option`s; `rotationDeg` is the source field `rotation`
with the `|| 0` default applied. -/
structure EditorElement where
  id : String
  pageId : String
  type : ToolMode
  x : Rat
  y : Rat
  width : Rat
  height : Rat
  content : Option String
  src : Option String
  color : String
  fontSize : Rat
  isBold : Bool
  isItalic : Bool
  opacity : Rat
  rotationDeg : Int
  points : Option (List (Rat × Rat))
  strokeWidth : Rat
deriving DecidableEq, Repr

/-- A convenient base element for building concrete test elements. -/
def baseElement : EditorElement :=
  { id := "e", pageId := "p", type := ToolMode.rect, x := 0, y := 0, width := 0,
    height := 0, content := none, src := none, color := "#000000", fontSize := 16,
    isBold := false, isItalic := false, opacity := 1, rotationDeg := 0,
    points := none, strokeWidth := 2 }

/-! ## Resizing and drag-creation (source `handleMouseMove` / `handleMouseUp`) -/

/-- A resize handle direction (the source strings "nw", "ne", "sw", "se";
`resizeDir.includes('e')` etc. become the four flags). -/
structure ResizeDir where
  n : Bool
  s : Bool
  e : Bool
  w : Bool
deriving DecidableEq, Repr

/-- One step of the `resizing` branch of `handleMouseMove` (part_001 lines
723-735): applies the mouse delta to the selected element, clamping the
resulting width and height at a minimum of 10. -/
def resizeElement (el : EditorElement) (dir : ResizeDir) (dx dy : Rat) : EditorElement :=
  let width := if dir.e then el.width + dx else el.width
  let height := if dir.s then el.height + dy else el.height
  let ex := if dir.w then el.x + dx else el.x
  let width2 := if dir.w then width - dx else width
  let ey := if dir.n then el.y + dy else el.y
  let height2 := if dir.n then height - dy else height
  { el with x := ex, y := ey, width := max 10 width2, height := max 10 height2 }

/-- The element built by the `creating` branch of `handleMouseUp` (part_001
lines 761-787) when the mouse is released at `(x, y)` after a drag that
started at `(startX, startY)`.  `newId` stands for the source's
`Date.now().toString()`. -/
def createShapeElement (toolMode : ToolMode) (activePageId newId : String)
    (startX startY x y : Rat) (curColor : String)
    (curFontSize curOpacity curStrokeWidth : Rat) : EditorElement :=
  let w := x - startX
  let h := y - startY
  let lineish := toolMode = ToolMode.line ∨ toolMode = ToolMode.arrow
  { id := newId
    pageId := activePageId
    type := toolMode
    x := if lineish then startX else min x startX
    y := if lineish then startY else min y startY
    width := if lineish then max 20 w else max 20 |w|
    height := if lineish then max 20 h else max 20 |h|
    color := if toolMode = ToolMode.redact then "#000000" else curColor
    fontSize := curFontSize
    opacity := if toolMode = ToolMode.redact then 1 else curOpacity
    strokeWidth := if toolMode = ToolMode.redact then 1 else curStrokeWidth
    content := if toolMode = ToolMode.text then some "Type here..." else none
    src := none
    isBold := false
    isItalic := false
    rotationDeg := 0
    points := none }

/-- The guard under which `handleMouseUp` actually stores the newly created
element (source line 781). -/
def createShapeAccepted (toolMode : ToolMode) (startX startY x y : Rat) : Prop :=
  toolMode = ToolMode.text ∨ 5 < |x - startX| ∨ 5 < |y - startY|

/-- Claim C2: the editor enforces a minimum element size interactively: every
resize interaction leaves the element with width and height at least 10, and
every drag-created shape element is stored with width and height at least 20. -/
theorem claim_C2_minimum_element_size :
    (∀ (el : EditorElement) (dir : ResizeDir) (dx dy : Rat),
      10 ≤ (resizeElement el dir dx dy).width ∧ 10 ≤ (resizeElement el dir dx dy).height) ∧
    (∀ (tm : ToolMode) (pid nid : String) (sx sy x y : Rat) (c : String) (fs op sw : Rat),
      20 ≤ (createShapeElement tm pid nid sx sy x y c fs op sw).width ∧
      20 ≤ (createShapeElement tm pid nid sx sy x y c fs op sw).height) := by
  constructor
  · intro el dir dx dy
    constructor <;> exact le_max_left _ _
  · intro tm pid nid sx sy x y c fs op sw
    constructor <;>
      · simp only [createShapeElement]
        split <;> exact le_max_left _ _

/-! ## Export geometry replay (source `handleDownload` lines 1017-1056,
identically in `flattenPDF` lines 876-911) -/

/-- The per-element geometry computed by the export routines before drawing:
`px`, `py` are the PDF-space base position, `pw`, `ph` the PDF-space size,
`rotDeg` the negated element rotation, and `cx`, `cy` the rotation center.
Embeds part_001 lines 1020-1027 with page height `h` and zoom `scale`. -/
structure ReplayGeom where
  px : Rat
  py : Rat
  pw : Rat
  ph : Rat
  rotDeg : Int
  cx : Rat
  cy : Rat
deriving DecidableEq, Repr

/-- Geometry replay of one element, from the source export loop. -/
def elementReplayGeom (scale h : Rat) (el : EditorElement) : ReplayGeom :=
  let px := el.x / scale
  let py := h - el.y / scale
  let pw := el.width / scale
  let ph := el.height / scale
  let rotVal := -el.rotationDeg
  { px := px, py := py, pw := pw, ph := ph, rotDeg := rotVal,
    cx := px + pw / 2, cy := py - ph / 2 }

/-- The source's `getRotatedXY` helper (part_001 lines 1028-1033), with the
cosine and sine of the rotation angle abstracted as the rational parameters
`c` and `s` (the source computes them with floating-point trigonometry). -/
def getRotatedXY (g : ReplayGeom) (c s : Rat) (origX origY : Rat) : Rat × Rat :=
  let dx := origX - g.cx
  let dy := origY - g.cy
  (g.cx + (dx * c - dy * s), g.cy + (dx * s + dy * c))

/-- Modelled from the spec wording of C6: the on-screen position divided by the
zoom scale, with the y axis flipped against the page height. -/
def specReplayPos (scale h : Rat) (el : EditorElement) : Rat × Rat :=
  (el.x / scale, h - el.y / scale)

/-- Modelled from the spec wording of C6: the on-screen size divided by the
zoom scale. -/
def specReplaySize (scale : Rat) (el : EditorElement) : Rat × Rat :=
  (el.width / scale, el.height / scale)

/-- Modelled from the spec wording of C6: the element's on-screen center
mapped into PDF space (divide by scale, flip y against the page height). -/
def specReplayCenter (scale h : Rat) (el : EditorElement) : Rat × Rat :=
  ((el.x + el.width / 2) / scale, h - (el.y + el.height / 2) / scale)

/-- Modelled from the spec wording of C6: rotation of a point about a given
center, with the cosine and sine of the angle given as `c` and `s`. -/
def rotateAbout (center : Rat × Rat) (c s : Rat) (p : Rat × Rat) : Rat × Rat :=
  (center.1 + ((p.1 - center.1) * c - (p.2 - center.2) * s),
   center.2 + ((p.1 - center.1) * s + (p.2 - center.2) * c))

/-- Claim C6: the export replays on-screen geometry: the PDF-space position is
the on-screen position divided by the zoom scale with the y axis flipped
against the page height, the size is the on-screen size divided by the scale,
the rotation is negated, the rotation center is the element's center, and
rotated positions are computed by rotation about that center. -/
theorem claim_C6_replay_geometry (scale h : Rat) (el : EditorElement) (c s : Rat)
    (q : Rat × Rat) :
    ((elementReplayGeom scale h el).px, (elementReplayGeom scale h el).py)
        = specReplayPos scale h el ∧
    ((elementReplayGeom scale h el).pw, (elementReplayGeom scale h el).ph)
        = specReplaySize scale el ∧
    (elementReplayGeom scale h el).rotDeg = -el.rotationDeg ∧
    ((elementReplayGeom scale h el).cx, (elementReplayGeom scale h el).cy)
        = specReplayCenter scale h el ∧
    getRotatedXY (elementReplayGeom scale h el) c s q.1 q.2
        = rotateAbout (specReplayCenter scale h el) c s q := by
  have hcx : (elementReplayGeom scale h el).cx = (specReplayCenter scale h el).1 := by
    simp only [elementReplayGeom, specReplayCenter]
    ring
  have hcy : (elementReplayGeom scale h el).cy = (specReplayCenter scale h el).2 := by
    simp only [elementReplayGeom, specReplayCenter]
    ring
  refine ⟨rfl, rfl, rfl, ?_, ?_⟩
  · rw [Prod.ext_iff]
    exact ⟨hcx, hcy⟩
  · simp only [getRotatedXY, rotateAbout, hcx, hcy]

/-! ## Editor state and history (source `PDFEditTool` component state) -/

/-- One history snapshot, as pushed by `saveToHistory` (part_001 lines 553-561). -/
structure Snapshot where
  elements : List EditorElement
  sequence : List PageMetadata
deriving DecidableEq, Repr

/-- The component state of `PDFEditTool` relevant to the claims.  `fileBytes`
is the stored upload buffer, `pdfDoc` the loaded rendering document (modelled
by its page count), `alerts` the log of `alert(...)` calls. -/
structure EditorState where
  fileBytes : Option (List Nat)
  pdfDoc : Option Nat
  pageSequence : List PageMetadata
  elements : List EditorElement
  history : List Snapshot
  historyIndex : Int
  currentPageIndex : Nat
  selectedId : Option String
  alerts : List String
deriving DecidableEq, Repr

/-- The initial component state (all `useState` initial values). -/
def initState : EditorState :=
  { fileBytes := none, pdfDoc := none, pageSequence := [], elements := [],
    history := [], historyIndex := -1, currentPageIndex := 0,
    selectedId := none, alerts := [] }

/-- The element clone made by `saveToHistory`:
`{ ...el, points: el.points ? [...el.points] : undefined }`. -/
def cloneElement (el : EditorElement) : EditorElement :=
  { el with points := match el.points with
      | some ps => some (ps.map (fun p => p))
      | none => none }

/-- The page clone made by `saveToHistory`: `{ ...p }`. -/
def clonePage (p : PageMetadata) : PageMetadata :=
  { id := p.id, originalIndex := p.originalIndex, rotationDeg := p.rotationDeg }

theorem cloneElement_eq (el : EditorElement) : cloneElement el = el := by
  cases el with
  | mk id pageId ty x y w h content src color fs b i op rot pts sw =>
    cases pts <;> simp [cloneElement]

theorem clonePage_eq (p : PageMetadata) : clonePage p = p := rfl

/-- The snapshot pushed by `saveToHistory`. -/
def historySnapshot (els : List EditorElement) (seq : List PageMetadata) : Snapshot :=
  { elements := els.map cloneElement, sequence := seq.map clonePage }

/-- `saveToHistory` (part_001 lines 553-561): truncate the history after the
current index, append a cloned snapshot, drop the oldest entry if the length
exceeds 30, and point the index at the last entry.  Only the `history` and
`historyIndex` fields are written; callers update `elements`/`pageSequence`
through their own state setters. -/
def saveToHistory (s : EditorState) (newElements : List EditorElement)
    (newSequence : List PageMetadata) : EditorState :=
  let newHistory1 := s.history.take (s.historyIndex + 1).toNat
      ++ [historySnapshot newElements newSequence]
  let newHistory := if 30 < newHistory1.length then newHistory1.drop 1 else newHistory1
  { s with history := newHistory, historyIndex := (newHistory.length : Int) - 1 }

/-- `undo` (part_001 lines 563-571).  The guarded array access
`history[historyIndex - 1]` is total in the source only because the guard
holds; the unreachable out-of-range case is modelled as a no-op. -/
def undo (s : EditorState) : EditorState :=
  if 0 < s.historyIndex then
    match s.history.get? (s.historyIndex - 1).toNat with
    | some prev =>
        { s with elements := prev.elements, pageSequence := prev.sequence,
                 historyIndex := s.historyIndex - 1, selectedId := none }
    | none => s
  else s

/-- `redo` (part_001 lines 573-581), modelled like `undo`. -/
def redo (s : EditorState) : EditorState :=
  if s.historyIndex < (s.history.length : Int) - 1 then
    match s.history.get? (s.historyIndex + 1).toNat with
    | some nxt =>
        { s with elements := nxt.elements, pageSequence := nxt.sequence,
                 historyIndex := s.historyIndex + 1, selectedId := none }
    | none => s
  else s

/-- The `disabled` condition of the undo toolbar button (part_001 line 1121):
`historyIndex <= 0`. -/
def undoButtonDisabled (s : EditorState) : Bool :=
  decide (s.historyIndex ≤ 0)

/-- The `disabled` condition of the redo toolbar button (part_001 line 1122):
`historyIndex >= history.length - 1`. -/
def redoButtonDisabled (s : EditorState) : Bool :=
  decide ((s.history.length : Int) - 1 ≤ s.historyIndex)

/-! ## Page organizer operations (source `organizeAction`, `handlePageDrop`) -/

/-- The `type` argument of `organizeAction`. -/
inductive OrgType
  | rotate | move | delete | duplicate | blank
deriving DecidableEq, Repr

/-- The `param` argument of `organizeAction` (`'cw'`, `'ccw'`, `'up'`,
`'down'`, or absent). -/
inductive OrgParam
  | cw | ccw | up | down | nil
deriving DecidableEq, Repr

/-- `organizeAction` (part_001 lines 664-710).  `freshPageId` and
`freshElemId` stand for the random ids generated by the source; the read of
`pageSequence[targetIdx].id` is total in the source only for valid indices,
so an out-of-range target index is modelled as a no-op. -/
def organizeAction (freshPageId : String) (freshElemId : String → String)
    (s : EditorState) (t : OrgType) (param : OrgParam)
    (specificIndex : Option Nat) : EditorState :=
  let targetIdx := specificIndex.getD s.currentPageIndex
  match s.pageSequence.get? targetIdx with
  | none => s
  | some target =>
    let pageId := target.id
    match t with
    | OrgType.rotate =>
        let delta : Int := if param = OrgParam.cw then 90 else -90
        let newSequence := s.pageSequence.set targetIdx
          { target with rotationDeg := (target.rotationDeg + delta + 360).tmod 360 }
        saveToHistory { s with pageSequence := newSequence } s.elements newSequence
    | OrgType.move =>
        let moveTarget : Int := if param = OrgParam.up then (targetIdx : Int) - 1
          else (targetIdx : Int) + 1
        if 0 ≤ moveTarget ∧ moveTarget < (s.pageSequence.length : Int) then
          let mt := moveTarget.toNat
          let newSequence := match s.pageSequence.get? mt with
            | some other => (s.pageSequence.set targetIdx other).set mt target
            | none => s.pageSequence
          saveToHistory { s with pageSequence := newSequence, currentPageIndex := mt }
            s.elements newSequence
        else
          saveToHistory s s.elements s.pageSequence
    | OrgType.delete =>
        if 1 < s.pageSequence.length then
          let newSequence := s.pageSequence.eraseIdx targetIdx
          let newElements := s.elements.filter (fun el => el.pageId ≠ pageId)
          saveToHistory { s with pageSequence := newSequence, elements := newElements,
                                 currentPageIndex := targetIdx - 1 }
            newElements newSequence
        else
          { s with alerts := s.alerts ++ ["Document must have at least one page."] }
    | OrgType.duplicate =>
        let newSequence := s.pageSequence.insertIdx (targetIdx + 1)
          { target with id := freshPageId }
        let clonedElements := (s.elements.filter (fun el => el.pageId = pageId)).map
          (fun el => { el with id := freshElemId el.id, pageId := freshPageId })
        let newElements := s.elements ++ clonedElements
        saveToHistory { s with pageSequence := newSequence, elements := newElements,
                               currentPageIndex := targetIdx + 1 }
          newElements newSequence
    | OrgType.blank =>
        let newSequence := s.pageSequence.insertIdx (targetIdx + 1)
          { id := freshPageId, originalIndex := -1, rotationDeg := 0 }
        saveToHistory { s with pageSequence := newSequence,
                               currentPageIndex := targetIdx + 1 }
          s.elements newSequence

/-- `handlePageDrop` (part_001 lines 652-662): move the dragged page to the
drop position and record the result in history. -/
def handlePageDrop (s : EditorState) (sourceIndex targetIndex : Nat) : EditorState :=
  if sourceIndex = targetIndex then s
  else match s.pageSequence.get? sourceIndex with
    | none => s
    | some moved =>
        let newSequence := (s.pageSequence.eraseIdx sourceIndex).insertIdx targetIndex moved
        saveToHistory { s with pageSequence := newSequence, currentPageIndex := targetIndex }
          s.elements newSequence

/-! ## Loading, new document, flattening, element edits -/

/-- The initial page sequence built by `handleFileUpload` (part_001 lines
621-625): `ids` are the random page ids, one per page of the loaded file. -/
def initialSequence (ids : List String) : List PageMetadata :=
  ids.enum.map (fun p => { id := p.2, originalIndex := (p.1 : Int) + 1, rotationDeg := 0 })

/-- `handleFileUpload` (part_001 lines 610-645): store the bytes, load the
document, reset sequence and elements, and record the fresh sequence via
`saveToHistory`.  Note that the source's `saveToHistory` closure still sees
the pre-upload `history`/`historyIndex`, so the final history is computed
from the old values, not from the cleared ones. -/
def uploadApply (s : EditorState) (ids : List String) (bytes : List Nat) : EditorState :=
  saveToHistory
    { s with fileBytes := some bytes, pdfDoc := some ids.length,
             pageSequence := initialSequence ids, currentPageIndex := 0,
             elements := [] }
    [] (initialSequence ids)

/-- The "New Document" menu action (part_001 line 1105): clears the loaded
document and replaces the sequence by a single blank page. -/
def newDocument (freshPageId : String) (s : EditorState) : EditorState :=
  { s with pdfDoc := none,
           pageSequence := [{ id := freshPageId, originalIndex := -1, rotationDeg := 0 }] }

/-- The state update of `flattenPDF` (part_001 lines 925-939): the saved
bytes become the new source, the sequence is renumbered with rotation 0, and
the elements are cleared and the result recorded in history. -/
def flattenApply (s : EditorState) (newBytes : List Nat) : EditorState :=
  if s.pageSequence = [] then s
  else
    let normalizedSequence := s.pageSequence.enum.map
      (fun p => { p.2 with originalIndex := (p.1 : Int) + 1, rotationDeg := 0 })
    saveToHistory
      { s with fileBytes := some newBytes, pdfDoc := some s.pageSequence.length,
               pageSequence := normalizedSequence, elements := [] }
      [] normalizedSequence

/-- A generic element-level edit (element creation, move, resize, rotation,
style change, deletion, z-order change, ...): all such paths set `elements`
and call `saveToHistory` with the unchanged page sequence. -/
def applyElementEdit (s : EditorState) (newElements : List EditorElement) : EditorState :=
  saveToHistory { s with elements := newElements } newElements s.pageSequence

/-- The editor states reachable from the initial mount by the modelled user
operations. -/
inductive Reachable : EditorState → Prop
  | init : Reachable initState
  | upload (ids : List String) (bytes : List Nat) {s : EditorState} :
      Reachable s → Reachable (uploadApply s ids bytes)
  | newDoc (freshPageId : String) {s : EditorState} :
      Reachable s → Reachable (newDocument freshPageId s)
  | organize (fid : String) (fe : String → String) (t : OrgType) (param : OrgParam)
      (idx : Option Nat) {s : EditorState} :
      Reachable s → Reachable (organizeAction fid fe s t param idx)
  | pageDrop (i j : Nat) {s : EditorState} :
      Reachable s → Reachable (handlePageDrop s i j)
  | stepUndo {s : EditorState} : Reachable s → Reachable (undo s)
  | stepRedo {s : EditorState} : Reachable s → Reachable (redo s)
  | elementEdit (els : List EditorElement) {s : EditorState} :
      Reachable s → Reachable (applyElementEdit s els)
  | flatten (bytes : List Nat) {s : EditorState} :
      Reachable s → Reachable (flattenApply s bytes)

/-! ## Helper lemmas about history and list membership -/

theorem mem_insertIdx_elim {α : Type} {a b : α} (n : Nat) (l : List α)
    (h : a ∈ List.insertIdx n b l) : a = b ∨ a ∈ l := by
  induction l generalizing n with
  | nil =>
    cases n with
    | zero =>
      simp only [List.insertIdx, List.modifyTailIdx, List.mem_cons, List.not_mem_nil,
        or_false] at h
      exact Or.inl h
    | succ m => simp only [List.insertIdx, List.modifyTailIdx, List.not_mem_nil] at h
  | cons x xs ih =>
    cases n with
    | zero =>
      simp only [List.insertIdx, List.modifyTailIdx, List.mem_cons] at h
      rcases h with h | h | h
      · exact Or.inl h
      · exact Or.inr (by simp [h])
      · exact Or.inr (List.mem_cons_of_mem x h)
    | succ m =>
      simp only [List.insertIdx, List.modifyTailIdx, List.mem_cons] at h
      rcases h with h | h
      · exact Or.inr (by simp [h])
      · rcases ih m h with h2 | h2
        · exact Or.inl h2
        · exact Or.inr (List.mem_cons_of_mem x h2)

theorem historySnapshot_eq (e : List EditorElement) (q : List PageMetadata) :
    historySnapshot e q = { elements := e, sequence := q } := by
  have h1 : e.map cloneElement = e := by
    have hce : cloneElement = fun el => el := funext cloneElement_eq
    rw [hce]
    exact List.map_id' e
  have h2 : q.map clonePage = q := by
    have hcp : clonePage = fun p => p := funext clonePage_eq
    rw [hcp]
    exact List.map_id' q
  simp [historySnapshot, h1, h2]

theorem saveToHistory_elements (s : EditorState) (e : List EditorElement)
    (q : List PageMetadata) : (saveToHistory s e q).elements = s.elements := rfl

theorem saveToHistory_pageSequence (s : EditorState) (e : List EditorElement)
    (q : List PageMetadata) : (saveToHistory s e q).pageSequence = s.pageSequence := rfl

theorem saveToHistory_fileBytes (s : EditorState) (e : List EditorElement)
    (q : List PageMetadata) : (saveToHistory s e q).fileBytes = s.fileBytes := rfl

theorem saveToHistory_pdfDoc (s : EditorState) (e : List EditorElement)
    (q : List PageMetadata) : (saveToHistory s e q).pdfDoc = s.pdfDoc := rfl

theorem saveToHistory_getLast (s : EditorState) (e : List EditorElement)
    (q : List PageMetadata) :
    (saveToHistory s e q).history.getLast? = some { elements := e, sequence := q } := by
  rw [← historySnapshot_eq e q]
  show (if 30 < _ then _ else _ : List Snapshot).getLast? = _
  set t := s.history.take (s.historyIndex + 1).toNat with ht
  cases t with
  | nil => simp [List.getLast?]
  | cons a rest =>
    rw [List.cons_append]
    split
    · show (List.drop 1 (a :: (rest ++ [historySnapshot e q]))).getLast? = _
      rw [List.drop_succ_cons, List.drop_zero]
      exact List.getLast?_concat _
    · show ((a :: rest) ++ [historySnapshot e q]).getLast? = _
      exact List.getLast?_concat _

theorem saveToHistory_historyIndex (s : EditorState) (e : List EditorElement)
    (q : List PageMetadata) :
    (saveToHistory s e q).historyIndex = ((saveToHistory s e q).history.length : Int) - 1 := rfl

theorem saveToHistory_length_le (s : EditorState) (e : List EditorElement)
    (q : List PageMetadata) (h : s.history.length ≤ 30) :
    (saveToHistory s e q).history.length ≤ 30 := by
  show (if 30 < _ then _ else _ : List Snapshot).length ≤ 30
  have htake : (s.history.take (s.historyIndex + 1).toNat).length ≤ 30 :=
    le_trans (by simp [List.length_take_le]) h
  by_cases hc : 30 < ((s.history.take (s.historyIndex + 1).toNat)
      ++ [historySnapshot e q]).length
  · simp only [if_pos hc, List.length_drop]
    simp only [List.length_append, List.length_cons, List.length_nil] at hc ⊢
    omega
  · simp only [if_neg hc]
    omega

theorem saveToHistory_mem_history (s : EditorState) (e : List EditorElement)
    (q : List PageMetadata) {snap : Snapshot}
    (h : snap ∈ (saveToHistory s e q).history) :
    snap ∈ s.history ∨ snap = { elements := e, sequence := q } := by
  rw [← historySnapshot_eq e q]
  have h2 : snap ∈ (s.history.take (s.historyIndex + 1).toNat) ++ [historySnapshot e q] := by
    revert h
    show snap ∈ (if 30 < _ then _ else _ : List Snapshot) → _
    split
    · exact fun h => List.mem_of_mem_drop h
    · exact id
  rcases List.mem_append.mp h2 with h3 | h3
  · exact Or.inl (List.mem_of_mem_take h3)
  · simp only [List.mem_singleton] at h3
    exact Or.inr h3

/-! ## The rotation invariant and the history bound over reachable states -/

/-- The rotation values the source comments document (part_001 line 75). -/
def rotOK (r : Int) : Prop := r = 0 ∨ r = 90 ∨ r = 180 ∨ r = 270

/-- Every page of a sequence carries a documented rotation value. -/
def seqRotOK (l : List PageMetadata) : Prop := ∀ p ∈ l, rotOK p.rotationDeg

/-- The inductive invariant: current and historic sequences carry documented
rotations, and the history is bounded by 30 snapshots. -/
def stateInv (s : EditorState) : Prop :=
  seqRotOK s.pageSequence ∧ (∀ snap ∈ s.history, seqRotOK snap.sequence) ∧
    s.history.length ≤ 30

theorem rotOK_rotate (r d : Int) (hr : rotOK r) (hd : d = 90 ∨ d = -90) :
    rotOK ((r + d + 360).tmod 360) := by
  rcases hd with hd | hd <;> rcases hr with h | h | h | h <;> subst hd <;> subst h <;>
    · unfold rotOK
      decide

theorem stateInv_saveToHistory {s : EditorState} (e : List EditorElement)
    {q : List PageMetadata}
    (h1 : seqRotOK s.pageSequence) (h2 : ∀ snap ∈ s.history, seqRotOK snap.sequence)
    (h3 : s.history.length ≤ 30) (hq : seqRotOK q) :
    stateInv (saveToHistory s e q) := by
  refine ⟨h1, ?_, saveToHistory_length_le s e q h3⟩
  intro snap hsnap
  rcases saveToHistory_mem_history s e q hsnap with h | h
  · exact h2 snap h
  · subst h
    exact hq

theorem seqRotOK_initialSequence (ids : List String) : seqRotOK (initialSequence ids) := by
  intro p hp
  simp only [initialSequence, List.mem_map] at hp
  obtain ⟨pr, _, hpr⟩ := hp
  rw [← hpr]
  exact Or.inl rfl

theorem reachable_stateInv {s : EditorState} (h : Reachable s) : stateInv s := by
  induction h with
  | init =>
    refine ⟨?_, ?_, ?_⟩
    · intro p hp
      cases hp
    · intro sn hsn
      cases hsn
    · simp [initState]
  | upload ids bytes _ ih =>
    exact stateInv_saveToHistory _ (seqRotOK_initialSequence ids) ih.2.1 ih.2.2
      (seqRotOK_initialSequence ids)
  | newDoc fid _ ih =>
    refine ⟨?_, ih.2.1, ih.2.2⟩
    intro p hp
    simp only [newDocument, List.mem_singleton] at hp
    rw [hp]
    exact Or.inl rfl
  | organize fid fe t param idx h ih =>
    obtain ⟨ihSeq, ihHist, ihLen⟩ := ih
    rename_i s
    unfold organizeAction
    dsimp only
    cases hg : s.pageSequence.get? (idx.getD s.currentPageIndex) with
    | none => exact ⟨ihSeq, ihHist, ihLen⟩
    | some target =>
      have htrot : rotOK target.rotationDeg := ihSeq target (List.get?_mem hg)
      cases t with
      | rotate =>
        dsimp only
        have hset : seqRotOK (s.pageSequence.set (idx.getD s.currentPageIndex)
            { target with rotationDeg :=
                (target.rotationDeg + (if param = OrgParam.cw then 90 else -90) + 360).tmod 360 }) := by
          intro p hp
          rcases List.mem_or_eq_of_mem_set hp with hmem | heq
          · exact ihSeq p hmem
          · rw [heq]
            exact rotOK_rotate _ _ htrot
              (by by_cases hc : param = OrgParam.cw <;> simp [hc])
        exact stateInv_saveToHistory _ hset ihHist ihLen hset
      | move =>
        dsimp only
        generalize (if param = OrgParam.up then (↑(idx.getD s.currentPageIndex) : Int) - 1
            else (↑(idx.getD s.currentPageIndex) : Int) + 1) = mtv
        split
        · cases hg2 : s.pageSequence.get? mtv.toNat with
          | none =>
            exact stateInv_saveToHistory _ ihSeq ihHist ihLen ihSeq
          | some other =>
            have hset : seqRotOK ((s.pageSequence.set (idx.getD s.currentPageIndex) other).set
                mtv.toNat target) := by
              intro p hp
              rcases List.mem_or_eq_of_mem_set hp with hmem | heq
              · rcases List.mem_or_eq_of_mem_set hmem with hmem2 | heq2
                · exact ihSeq p hmem2
                · rw [heq2]
                  exact ihSeq other (List.get?_mem hg2)
              · rw [heq]
                exact htrot
            exact stateInv_saveToHistory _ hset ihHist ihLen hset
        · exact stateInv_saveToHistory _ ihSeq ihHist ihLen ihSeq
      | delete =>
        dsimp only
        split
        · have hset : seqRotOK (s.pageSequence.eraseIdx (idx.getD s.currentPageIndex)) := by
            intro p hp
            exact ihSeq p (List.mem_of_mem_eraseIdx hp)
          exact stateInv_saveToHistory _ hset ihHist ihLen hset
        · exact ⟨ihSeq, ihHist, ihLen⟩
      | duplicate =>
        dsimp only
        have hset : seqRotOK (s.pageSequence.insertIdx (idx.getD s.currentPageIndex + 1)
            { target with id := fid }) := by
          intro p hp
          rcases mem_insertIdx_elim _ _ hp with heq | hmem
          · rw [heq]
            exact htrot
          · exact ihSeq p hmem
        exact stateInv_saveToHistory _ hset ihHist ihLen hset
      | blank =>
        dsimp only
        have hset : seqRotOK (s.pageSequence.insertIdx (idx.getD s.currentPageIndex + 1)
            { id := fid, originalIndex := -1, rotationDeg := 0 }) := by
          intro p hp
          rcases mem_insertIdx_elim _ _ hp with heq | hmem
          · rw [heq]
            exact Or.inl rfl
          · exact ihSeq p hmem
        exact stateInv_saveToHistory _ hset ihHist ihLen hset
  | pageDrop i j h ih =>
    obtain ⟨ihSeq, ihHist, ihLen⟩ := ih
    rename_i s
    unfold handlePageDrop
    dsimp only
    split
    · exact ⟨ihSeq, ihHist, ihLen⟩
    · cases hg : s.pageSequence.get? i with
      | none => exact ⟨ihSeq, ihHist, ihLen⟩
      | some moved =>
        have hset : seqRotOK ((s.pageSequence.eraseIdx i).insertIdx j moved) := by
          intro p hp
          rcases mem_insertIdx_elim _ _ hp with heq | hmem
          · rw [heq]
            exact ihSeq moved (List.get?_mem hg)
          · exact ihSeq p (List.mem_of_mem_eraseIdx hmem)
        exact stateInv_saveToHistory _ hset ihHist ihLen hset
  | stepUndo h ih =>
    obtain ⟨ihSeq, ihHist, ihLen⟩ := ih
    rename_i s
    unfold undo
    split
    · cases hg : s.history.get? (s.historyIndex - 1).toNat with
      | none => exact ⟨ihSeq, ihHist, ihLen⟩
      | some prev =>
        exact ⟨ihHist prev (List.get?_mem hg), ihHist, ihLen⟩
    · exact ⟨ihSeq, ihHist, ihLen⟩
  | stepRedo h ih =>
    obtain ⟨ihSeq, ihHist, ihLen⟩ := ih
    rename_i s
    unfold redo
    split
    · cases hg : s.history.get? (s.historyIndex + 1).toNat with
      | none => exact ⟨ihSeq, ihHist, ihLen⟩
      | some nxt =>
        exact ⟨ihHist nxt (List.get?_mem hg), ihHist, ihLen⟩
    · exact ⟨ihSeq, ihHist, ihLen⟩
  | elementEdit els h ih =>
    obtain ⟨ihSeq, ihHist, ihLen⟩ := ih
    exact stateInv_saveToHistory _ ihSeq ihHist ihLen ihSeq
  | flatten bytes h ih =>
    obtain ⟨ihSeq, ihHist, ihLen⟩ := ih
    rename_i s
    unfold flattenApply
    split
    · exact ⟨ihSeq, ihHist, ihLen⟩
    · have hset : seqRotOK (s.pageSequence.enum.map
          (fun p => { p.2 with originalIndex := (p.1 : Int) + 1, rotationDeg := 0 })) := by
        intro p hp
        simp only [List.mem_map] at hp
        obtain ⟨pr, _, hpr⟩ := hp
        rw [← hpr]
        exact Or.inl rfl
      exact stateInv_saveToHistory _ hset ihHist ihLen hset

/-! ## Concrete states used by the witnesses -/

def pageA : PageMetadata := { id := "a", originalIndex := 1, rotationDeg := 0 }

def pageA90 : PageMetadata := { id := "a", originalIndex := 1, rotationDeg := 90 }

def pageB : PageMetadata := { id := "b", originalIndex := 2, rotationDeg := 0 }

def snapA : Snapshot := { elements := [], sequence := [pageA] }

def snapB : Snapshot := { elements := [baseElement], sequence := [pageA90] }

def exampleState : EditorState :=
  { initState with pageSequence := [pageA90], elements := [baseElement],
                   history := [snapA, snapB], historyIndex := 1 }

def exampleState2 : EditorState :=
  { initState with pageSequence := [pageA, pageB], elements := [baseElement],
                   history := [snapA], historyIndex := 0 }

/-! ## Claims C5, C7, C8, C9, C10 -/

/-- Claim C5: undo is enabled exactly when the history index is positive and
restores the previous history entry; redo is enabled exactly when the index is
below the last entry and restores the next entry; both clear the selection and
neither changes any history entry. -/
theorem claim_C5_undo_redo (s : EditorState) :
    (undoButtonDisabled s = false ↔ 0 < s.historyIndex) ∧
    (redoButtonDisabled s = false ↔ s.historyIndex < (s.history.length : Int) - 1) ∧
    (∀ prev : Snapshot, 0 < s.historyIndex →
      s.history.get? (s.historyIndex - 1).toNat = some prev →
      undo s = { s with elements := prev.elements, pageSequence := prev.sequence,
                        historyIndex := s.historyIndex - 1, selectedId := none }) ∧
    (∀ nxt : Snapshot, s.historyIndex < (s.history.length : Int) - 1 →
      s.history.get? (s.historyIndex + 1).toNat = some nxt →
      redo s = { s with elements := nxt.elements, pageSequence := nxt.sequence,
                        historyIndex := s.historyIndex + 1, selectedId := none }) ∧
    (undo s).history = s.history ∧ (redo s).history = s.history := by
  refine ⟨?_, ?_, ?_, ?_, ?_, ?_⟩
  · simp only [undoButtonDisabled, decide_eq_false_iff_not, not_le]
  · simp only [redoButtonDisabled, decide_eq_false_iff_not, not_le]
  · intro prev hpos hget
    unfold undo
    rw [if_pos hpos, hget]
  · intro nxt hlt hget
    unfold redo
    rw [if_pos hlt, hget]
  · unfold undo
    split
    · cases hg : s.history.get? (s.historyIndex - 1).toNat with
      | none => rfl
      | some prev => rfl
    · rfl
  · unfold redo
    split
    · cases hg : s.history.get? (s.historyIndex + 1).toNat with
      | none => rfl
      | some nxt => rfl
    · rfl

/-- Witness for C5 on a concrete two-entry history. -/
theorem claim_C5_undo_redo_witness :
    undo exampleState
      = { exampleState with elements := snapA.elements, pageSequence := snapA.sequence,
                            historyIndex := exampleState.historyIndex - 1,
                            selectedId := none } :=
  (claim_C5_undo_redo exampleState).2.2.1 snapA (by decide) (by rfl)

/-- Claim C7: every organizer operation (rotate, move, delete, duplicate,
insert blank, drag-reorder) leaves the loaded source bytes and the loaded
rendering document unchanged, and (when not blocked) records the resulting
elements and page sequence as the last history entry. -/
theorem claim_C7_organizer_frame :
    (∀ (fid : String) (fe : String → String) (s : EditorState) (t : OrgType)
        (param : OrgParam) (idx : Option Nat),
      (organizeAction fid fe s t param idx).fileBytes = s.fileBytes ∧
      (organizeAction fid fe s t param idx).pdfDoc = s.pdfDoc) ∧
    (∀ (s : EditorState) (i j : Nat),
      (handlePageDrop s i j).fileBytes = s.fileBytes ∧
      (handlePageDrop s i j).pdfDoc = s.pdfDoc) ∧
    (∀ (fid : String) (fe : String → String) (s : EditorState) (t : OrgType)
        (param : OrgParam) (idx : Option Nat) (target : PageMetadata),
      s.pageSequence.get? (idx.getD s.currentPageIndex) = some target →
      (t = OrgType.delete → 1 < s.pageSequence.length) →
      (organizeAction fid fe s t param idx).history.getLast?
        = some { elements := (organizeAction fid fe s t param idx).elements,
                 sequence := (organizeAction fid fe s t param idx).pageSequence }) ∧
    (∀ (s : EditorState) (i j : Nat) (moved : PageMetadata),
      i ≠ j → s.pageSequence.get? i = some moved →
      (handlePageDrop s i j).history.getLast?
        = some { elements := (handlePageDrop s i j).elements,
                 sequence := (handlePageDrop s i j).pageSequence }) := by
  refine ⟨?_, ?_, ?_, ?_⟩
  · intro fid fe s t param idx
    unfold organizeAction
    dsimp only
    constructor <;>
      · repeat' split
        all_goals rfl
  · intro s i j
    unfold handlePageDrop
    dsimp only
    constructor <;>
      · repeat' split
        all_goals rfl
  · intro fid fe s t param idx target hget hdel
    unfold organizeAction
    dsimp only
    rw [hget]
    dsimp only
    cases t with
    | rotate => exact saveToHistory_getLast _ _ _
    | move =>
      dsimp only
      generalize (if param = OrgParam.up then (↑(idx.getD s.currentPageIndex) : Int) - 1
          else (↑(idx.getD s.currentPageIndex) : Int) + 1) = mtv
      split
      · cases hg2 : s.pageSequence.get? mtv.toNat with
        | none => exact saveToHistory_getLast _ _ _
        | some other => exact saveToHistory_getLast _ _ _
      · exact saveToHistory_getLast _ _ _
    | delete =>
      dsimp only
      split
      · exact saveToHistory_getLast _ _ _
      · rename_i hnlt
        exact absurd (hdel rfl) hnlt
    | duplicate => exact saveToHistory_getLast _ _ _
    | blank => exact saveToHistory_getLast _ _ _
  · intro s i j moved hne hget
    unfold handlePageDrop
    dsimp only
    rw [if_neg hne, hget]
    exact saveToHistory_getLast _ _ _

/-- Witness for C7 on a concrete rotate action. -/
theorem claim_C7_organizer_frame_witness :
    (organizeAction "n" (fun i => i) exampleState OrgType.rotate OrgParam.cw
        (some 0)).history.getLast?
      = some { elements := (organizeAction "n" (fun i => i) exampleState OrgType.rotate
                  OrgParam.cw (some 0)).elements,
               sequence := (organizeAction "n" (fun i => i) exampleState OrgType.rotate
                  OrgParam.cw (some 0)).pageSequence } :=
  claim_C7_organizer_frame.2.2.1 "n" (fun i => i) exampleState OrgType.rotate OrgParam.cw
    (some 0) pageA90 (by rfl) (by decide)

/-- Claim C8: every page rotation in every reachable editor state is one of
0, 90, 180, 270; pages are created with rotation 0, and the rotate formulas
`(r + 90 + 360) tmod 360` and `(r - 90 + 360) tmod 360` preserve the set. -/
theorem claim_C8_rotation_values :
    (∀ s : EditorState, Reachable s →
      ∀ p ∈ s.pageSequence,
        p.rotationDeg = 0 ∨ p.rotationDeg = 90 ∨ p.rotationDeg = 180 ∨
          p.rotationDeg = 270) ∧
    (∀ ids : List String, ∀ p ∈ initialSequence ids, p.rotationDeg = 0) ∧
    (∀ r : Int, (r = 0 ∨ r = 90 ∨ r = 180 ∨ r = 270) →
      (((r + 90 + 360).tmod 360 = 0 ∨ (r + 90 + 360).tmod 360 = 90 ∨
        (r + 90 + 360).tmod 360 = 180 ∨ (r + 90 + 360).tmod 360 = 270) ∧
       ((r - 90 + 360).tmod 360 = 0 ∨ (r - 90 + 360).tmod 360 = 90 ∨
        (r - 90 + 360).tmod 360 = 180 ∨ (r - 90 + 360).tmod 360 = 270))) := by
  refine ⟨?_, ?_, ?_⟩
  · intro s hs p hp
    exact (reachable_stateInv hs).1 p hp
  · intro ids p hp
    simp only [initialSequence, List.mem_map] at hp
    obtain ⟨pr, _, hpr⟩ := hp
    rw [← hpr]
  · intro r hr
    constructor
    · exact rotOK_rotate r 90 hr (Or.inl rfl)
    · have h2 : rotOK ((r + -90 + 360).tmod 360) := rotOK_rotate r (-90) hr (Or.inr rfl)
      rw [sub_eq_add_neg]
      exact h2

/-- Witness for C8 on the state reached by uploading a two-page file. -/
theorem claim_C8_rotation_values_witness :
    ∀ p ∈ (uploadApply initState ["a", "b"] []).pageSequence,
      p.rotationDeg = 0 ∨ p.rotationDeg = 90 ∨ p.rotationDeg = 180 ∨
        p.rotationDeg = 270 :=
  claim_C8_rotation_values.1 _ (Reachable.upload ["a", "b"] [] Reachable.init)

/-- Claim C9: page deletion is atomic on its precondition: with exactly one
page it only alerts, leaving sequence, elements and history unchanged; with
more than one page it removes exactly the target page and exactly the
elements whose pageId matches it. -/
theorem claim_C9_delete_atomicity (fid : String) (fe : String → String)
    (s : EditorState) (idx : Option Nat) (target : PageMetadata)
    (hget : s.pageSequence.get? (idx.getD s.currentPageIndex) = some target) :
    (s.pageSequence.length = 1 →
      organizeAction fid fe s OrgType.delete OrgParam.nil idx
        = { s with alerts := s.alerts ++ ["Document must have at least one page."] }) ∧
    (1 < s.pageSequence.length →
      (organizeAction fid fe s OrgType.delete OrgParam.nil idx).pageSequence
          = s.pageSequence.eraseIdx (idx.getD s.currentPageIndex) ∧
      (organizeAction fid fe s OrgType.delete OrgParam.nil idx).elements
          = s.elements.filter (fun el => el.pageId ≠ target.id) ∧
      (organizeAction fid fe s OrgType.delete OrgParam.nil idx).history.getLast?
          = some { elements := s.elements.filter (fun el => el.pageId ≠ target.id),
                   sequence := s.pageSequence.eraseIdx (idx.getD s.currentPageIndex) }) := by
  unfold organizeAction
  dsimp only
  rw [hget]
  dsimp only
  constructor
  · intro hlen
    rw [if_neg (by omega)]
  · intro hlen
    rw [if_pos hlen]
    exact ⟨rfl, rfl, saveToHistory_getLast _ _ _⟩

/-- Witness for C9 on a concrete two-page state. -/
theorem claim_C9_delete_atomicity_witness :
    (organizeAction "n" (fun i => i) exampleState2 OrgType.delete OrgParam.nil
        (some 0)).pageSequence = exampleState2.pageSequence.eraseIdx 0 ∧
    (organizeAction "n" (fun i => i) exampleState2 OrgType.delete OrgParam.nil
        (some 0)).elements
      = exampleState2.elements.filter (fun el => el.pageId ≠ pageA.id) := by
  have h := (claim_C9_delete_atomicity "n" (fun i => i) exampleState2 (some 0) pageA
    (by rfl)).2 (by decide)
  exact ⟨h.1, h.2.1⟩

/-- Claim C10: `saveToHistory` truncates after the current index, appends the
cloned snapshot, drops the oldest entry above 30, points the index at the last
entry; and the history of every reachable state holds at most 30 snapshots. -/
theorem claim_C10_history_bounded :
    (∀ s : EditorState, Reachable s → s.history.length ≤ 30) ∧
    (∀ (s : EditorState) (e : List EditorElement) (q : List PageMetadata),
      (saveToHistory s e q).history =
        (if 30 < (s.history.take (s.historyIndex + 1).toNat
            ++ [historySnapshot e q]).length
         then (s.history.take (s.historyIndex + 1).toNat ++ [historySnapshot e q]).drop 1
         else s.history.take (s.historyIndex + 1).toNat ++ [historySnapshot e q]) ∧
      (saveToHistory s e q).historyIndex
          = ((saveToHistory s e q).history.length : Int) - 1 ∧
      (saveToHistory s e q).history.getLast? = some { elements := e, sequence := q }) := by
  constructor
  · intro s hs
    exact (reachable_stateInv hs).2.2
  · intro s e q
    exact ⟨rfl, rfl, saveToHistory_getLast s e q⟩

/-- Witness for C10: the initial state is reachable and within the bound, and
a concrete save ends with the given snapshot. -/
theorem claim_C10_history_bounded_witness :
    initState.history.length ≤ 30 ∧
    (saveToHistory exampleState [baseElement] [pageA]).history.getLast?
      = some { elements := [baseElement], sequence := [pageA] } :=
  ⟨claim_C10_history_bounded.1 initState Reachable.init,
   (claim_C10_history_bounded.2 exampleState [baseElement] [pageA]).2.2⟩

/-! ## Render-task cancellation (source `PDFPage` effect, part_001 lines
162-206; the same structure appears in `PDFThumbnail` lines 415-458 and in
`PDFSignTool.renderPage`).  The effect body first cancels the task held in
`renderTaskRef`, then either returns (blank page or missing document) or
starts a fresh render task; the effect cleanup, run by the framework before
each re-run and on unmount, cancels the task held in the ref. -/

/-- Observable render actions: canceling a task or starting one. -/
inductive RAction
  | cancel (t : Nat)
  | start (t : Nat)
deriving DecidableEq, Repr

/-- The `renderTaskRef` cell plus a supply of fresh task ids. -/
structure RenderSt where
  inFlight : Option Nat
  nextId : Nat
deriving DecidableEq, Repr

/-- The effect cleanup (part_001 lines 201-205): cancel the task in the ref. -/
def cleanupActions (st : RenderSt) : List RAction :=
  match st.inFlight with
  | some t => [RAction.cancel t]
  | none => []

/-- The effect body (part_001 lines 163-199): cancel the task in the ref,
then, unless the page is blank or no document is loaded (`blank`), start a
fresh render task and store it in the ref. -/
def effectBody (blank : Bool) (st : RenderSt) : List RAction × RenderSt :=
  if blank then (cleanupActions st, st)
  else (cleanupActions st ++ [RAction.start st.nextId],
        { inFlight := some st.nextId, nextId := st.nextId + 1 })

/-- Lifecycle events of the page component: initial mount, a change of the
render parameters (the deps array `[pdfDoc, pageMeta, scale]`), unmount. -/
inductive REvent
  | mount (blank : Bool)
  | depsChange (blank : Bool)
  | unmount
deriving DecidableEq, Repr

/-- The action trace produced by a sequence of lifecycle events under the
framework rule: on a deps change the previous effect's cleanup runs before
the new body; on unmount only the cleanup runs. -/
def runEffects : RenderSt → List REvent → List RAction
  | _, [] => []
  | st, REvent.mount b :: rest =>
      (effectBody b st).1 ++ runEffects (effectBody b st).2 rest
  | st, REvent.depsChange b :: rest =>
      cleanupActions st ++ (effectBody b st).1 ++ runEffects (effectBody b st).2 rest
  | st, REvent.unmount :: rest =>
      cleanupActions st ++ runEffects { st with inFlight := none } rest

/-- Trace scanner: tracks the currently started task and whether it has been
canceled; a `start` while an uncanceled task is in flight is a violation
(`none`). -/
def scanState : Option Nat → Bool → List RAction → Option (Option Nat × Bool)
  | cur, canc, [] => some (cur, canc)
  | cur, canc, RAction.cancel t :: rest => scanState cur (canc || (cur == some t)) rest
  | cur, canc, RAction.start t :: rest =>
      if cur == none || canc then scanState (some t) false rest else none

/-- A trace is well-formed when every started task is canceled before the
next task is started. -/
def staleCanceledBeforeStart (acts : List RAction) : Bool :=
  (scanState none false acts).isSome

/-- The render-error reporting filter of the catch blocks (part_001 lines
194-198): a `RenderingCancelledException` is not reported. -/
def shouldReportRenderError (n : String) : Bool :=
  n != "RenderingCancelledException"

theorem scanState_append (xs ys : List RAction) :
    ∀ (cur : Option Nat) (canc : Bool),
      scanState cur canc (xs ++ ys)
        = match scanState cur canc xs with
          | some pr => scanState pr.1 pr.2 ys
          | none => none := by
  induction xs with
  | nil => intro cur canc; rfl
  | cons a rest ih =>
    intro cur canc
    cases a with
    | cancel t =>
      simp only [List.cons_append, scanState]
      exact ih _ _
    | start t =>
      simp only [List.cons_append, scanState]
      split
      · exact ih _ _
      · rfl

/-- The scanner invariant: the scanner's current task agrees with the ref, or
the ref is empty and the scanner's task is already canceled. -/
def scanInv (st : RenderSt) (cur : Option Nat) (canc : Bool) : Prop :=
  cur = st.inFlight ∨ (st.inFlight = none ∧ canc = true)


theorem scanState_cleanup_keep (st : RenderSt) (cur : Option Nat) (canc : Bool)
    (h : scanInv st cur canc) :
    ∃ pr : Option Nat × Bool,
      scanState cur canc (cleanupActions st) = some pr ∧ scanInv st pr.1 pr.2 := by
  cases hf : st.inFlight with
  | none =>
    refine ⟨(cur, canc), by simp [cleanupActions, hf, scanState], ?_⟩
    exact h
  | some t =>
    rcases h with h | h
    · exact ⟨(cur, canc || (cur == some t)), by simp [cleanupActions, hf, scanState],
        Or.inl h⟩
    · rw [h.1] at hf
      cases hf

theorem scanState_cleanup_unmount (st : RenderSt) (cur : Option Nat) (canc : Bool)
    (h : scanInv st cur canc) :
    ∃ pr : Option Nat × Bool,
      scanState cur canc (cleanupActions st) = some pr ∧
        scanInv { st with inFlight := none } pr.1 pr.2 := by
  cases hf : st.inFlight with
  | none =>
    refine ⟨(cur, canc), by simp [cleanupActions, hf, scanState], ?_⟩
    rcases h with h | h
    · exact Or.inl (h.trans hf)
    · exact Or.inr ⟨rfl, h.2⟩
  | some t =>
    rcases h with h | h
    · refine ⟨(cur, canc || (cur == some t)), by simp [cleanupActions, hf, scanState], ?_⟩
      refine Or.inr ⟨rfl, ?_⟩
      rw [hf] at h
      rw [h]
      simp
    · rw [h.1] at hf
      cases hf

theorem scanState_effectBody (b : Bool) (st : RenderSt) (cur : Option Nat) (canc : Bool)
    (h : scanInv st cur canc) :
    ∃ pr : Option Nat × Bool,
      scanState cur canc (effectBody b st).1 = some pr ∧
        scanInv (effectBody b st).2 pr.1 pr.2 := by
  cases b with
  | true =>
    obtain ⟨pr, hpr, hinv⟩ := scanState_cleanup_keep st cur canc h
    exact ⟨pr, hpr, hinv⟩
  | false =>
    cases hf : st.inFlight with
    | none =>
      have hcond : (cur == none || canc) = true := by
        rcases h with h | h
        · rw [h, hf]
          rfl
        · rw [h.2]
          simp
      refine ⟨(some st.nextId, false), ?_, Or.inl rfl⟩
      show scanState cur canc (cleanupActions st ++ [RAction.start st.nextId]) = _
      simp only [cleanupActions, hf, List.nil_append, scanState, hcond, if_true]
    | some t =>
      rcases h with h | h
      · rw [hf] at h
        refine ⟨(some st.nextId, false), ?_, Or.inl rfl⟩
        show scanState cur canc (cleanupActions st ++ [RAction.start st.nextId]) = _
        rw [h]
        simp [cleanupActions, hf, scanState]
      · rw [h.1] at hf
        cases hf

theorem scanState_runEffects (evs : List REvent) :
    ∀ (st : RenderSt) (cur : Option Nat) (canc : Bool),
      scanInv st cur canc →
      ∃ pr : Option Nat × Bool, scanState cur canc (runEffects st evs) = some pr := by
  induction evs with
  | nil => exact fun st cur canc _ => ⟨(cur, canc), rfl⟩
  | cons e rest ih =>
    intro st cur canc h
    cases e with
    | mount b =>
      obtain ⟨pr, hpr, hinv⟩ := scanState_effectBody b st cur canc h
      obtain ⟨pr2, hpr2⟩ := ih (effectBody b st).2 pr.1 pr.2 hinv
      refine ⟨pr2, ?_⟩
      show scanState cur canc ((effectBody b st).1 ++ runEffects (effectBody b st).2 rest)
        = some pr2
      rw [scanState_append, hpr]
      exact hpr2
    | depsChange b =>
      obtain ⟨pr0, hpr0, hinv0⟩ := scanState_cleanup_keep st cur canc h
      obtain ⟨pr, hpr, hinv⟩ := scanState_effectBody b st pr0.1 pr0.2 hinv0
      obtain ⟨pr2, hpr2⟩ := ih (effectBody b st).2 pr.1 pr.2 hinv
      refine ⟨pr2, ?_⟩
      simp only [runEffects]
      rw [scanState_append, scanState_append, hpr0]
      dsimp only
      rw [hpr]
      exact hpr2
    | unmount =>
      obtain ⟨pr0, hpr0, hinv0⟩ := scanState_cleanup_unmount st cur canc h
      obtain ⟨pr2, hpr2⟩ := ih { st with inFlight := none } pr0.1 pr0.2 hinv0
      refine ⟨pr2, ?_⟩
      show scanState cur canc (cleanupActions st
          ++ runEffects { st with inFlight := none } rest) = some pr2
      rw [scanState_append, hpr0]
      exact hpr2

/-- Claim C4: whenever the render parameters of a page component change while
a render task is in flight, the stale task is canceled before a new render is
started, the same cancellation is performed on unmount, and a cancellation
exception is not reported as an error. -/
theorem claim_C4_render_cancellation :
    (∀ evs : List REvent,
      staleCanceledBeforeStart (runEffects { inFlight := none, nextId := 0 } evs) = true) ∧
    (∀ t n : Nat,
      runEffects { inFlight := some t, nextId := n } [REvent.unmount]
        = [RAction.cancel t]) ∧
    shouldReportRenderError "RenderingCancelledException" = false := by
  refine ⟨?_, ?_, ?_⟩
  · intro evs
    obtain ⟨pr, hpr⟩ := scanState_runEffects evs { inFlight := none, nextId := 0 }
      none false (Or.inl rfl)
    simp [staleCanceledBeforeStart, hpr]
  · intro t n
    simp [runEffects, cleanupActions]
  · rfl

/-! ## The export trace of `handleDownload` (part_001 lines 950-1082) -/

/-- The kind of primitive drawn for an element by the export if-chain. -/
inductive ElemKind
  | text | rect | circle | line | arrow | image
deriving DecidableEq, Repr

/-- Document-construction operations performed by `handleDownload`, at the
granularity of the claim (font embedding and the final byte download are
setup/output plumbing and carry no trace entry). -/
inductive DocOp
  | create
  | addBlank (w h : Nat)
  | copyPage (srcIndex : Nat) (rotDeg : Int)
  | drawPageNumber (n total : Nat)
  | drawWatermark (txt : String)
  | drawElem (id : String) (k : ElemKind)
  | drawRedact (id : String)
  | save
deriving DecidableEq, Repr

/-- The state read by `handleDownload`: the page sequence, the elements, the
page count of the loaded source document (`none` when `fileBytes` is null),
the page-numbering switch and the watermark text. -/
structure DownloadInput where
  pageSequence : List PageMetadata
  elements : List EditorElement
  sourcePages : Option Nat
  numberingEnabled : Bool
  watermark : String
deriving DecidableEq, Repr

/-- The drawing if-chain of the export loop (part_001 lines 1035-1056): the
primitive kind emitted for an element, if any.  Pen strokes (`draw`,
`highlight`), erasers and images without a source match no branch. -/
def drawableKind (el : EditorElement) : Option ElemKind :=
  match el.type with
  | ToolMode.text => some ElemKind.text
  | ToolMode.rect => some ElemKind.rect
  | ToolMode.circle => some ElemKind.circle
  | ToolMode.line => some ElemKind.line
  | ToolMode.arrow => some ElemKind.arrow
  | ToolMode.image => if el.src.isSome then some ElemKind.image else none
  | _ => none

/-- The page acquisition of the export loop (part_001 lines 963-981): a blank
612x792 page when `originalIndex` is `-1`, a copy of the source page (with the
stored rotation applied) when the index is in range, a blank page otherwise. -/
def copyOrBlankOp (sourcePages : Option Nat) (meta : PageMetadata) : DocOp :=
  if meta.originalIndex = -1 then DocOp.addBlank 612 792
  else
    match sourcePages with
    | some n =>
        if 0 ≤ meta.originalIndex - 1 ∧ meta.originalIndex - 1 < (n : Int) then
          DocOp.copyPage (meta.originalIndex - 1).toNat meta.rotationDeg
        else DocOp.addBlank 612 792
    | none => DocOp.addBlank 612 792

/-- The operations of one iteration of the export loop: page acquisition,
page number (when enabled), watermark (when set), the non-redact element
draws in element order, then the redact rectangles. -/
def pageTrace (inp : DownloadInput) (i : Nat) (meta : PageMetadata) : List DocOp :=
  let pageEls := inp.elements.filter (fun el => el.pageId = meta.id)
  [copyOrBlankOp inp.sourcePages meta]
    ++ (if inp.numberingEnabled then
          [DocOp.drawPageNumber (i + 1) inp.pageSequence.length] else [])
    ++ (if inp.watermark ≠ "" then [DocOp.drawWatermark inp.watermark] else [])
    ++ pageEls.filterMap (fun el =>
          if el.type = ToolMode.redact then none
          else (drawableKind el).map (fun k => DocOp.drawElem el.id k))
    ++ (pageEls.filter (fun el => el.type = ToolMode.redact)).map
          (fun el => DocOp.drawRedact el.id)

/-- The export loop over the page sequence, starting at page index `i`. -/
def pagesTrace (inp : DownloadInput) : Nat → List PageMetadata → List DocOp
  | _, [] => []
  | i, m :: rest => pageTrace inp i m ++ pagesTrace inp (i + 1) rest

/-- The full operation trace of `handleDownload`: nothing for an empty page
sequence (the early return), otherwise create, the per-page operations, and
the final save. -/
def handleDownloadTrace (inp : DownloadInput) : List DocOp :=
  if inp.pageSequence = [] then []
  else DocOp.create :: pagesTrace inp 0 inp.pageSequence ++ [DocOp.save]

/-- Modelled from the spec wording of C1: a blank page exactly when the
entry's `originalIndex` is `-1` or out of range of the source document. -/
def specCopyOrBlank (sourcePages : Option Nat) (meta : PageMetadata) : DocOp :=
  if meta.originalIndex = -1 ∨ meta.originalIndex - 1 < 0 ∨
      ((sourcePages.getD 0 : Int) ≤ meta.originalIndex - 1) then
    DocOp.addBlank 612 792
  else DocOp.copyPage (meta.originalIndex - 1).toNat meta.rotationDeg

/-- Modelled from the spec wording of C1: the per-page overlay order — page
acquisition, page numbers, watermark, then the drawable non-redact elements,
then the redact rectangles. -/
def specPageTrace (inp : DownloadInput) (i : Nat) (meta : PageMetadata) : List DocOp :=
  let pageEls := inp.elements.filter (fun el => el.pageId = meta.id)
  [specCopyOrBlank inp.sourcePages meta]
    ++ (if inp.numberingEnabled then
          [DocOp.drawPageNumber (i + 1) inp.pageSequence.length] else [])
    ++ (if inp.watermark ≠ "" then [DocOp.drawWatermark inp.watermark] else [])
    ++ ((pageEls.filter (fun el => el.type ≠ ToolMode.redact)).filterMap
          (fun el => (drawableKind el).map (fun k => DocOp.drawElem el.id k)))
    ++ (pageEls.filter (fun el => el.type = ToolMode.redact)).map
          (fun el => DocOp.drawRedact el.id)

/-- Modelled from the spec wording of C1: the spec's per-page blocks in
sequence order. -/
def specPagesTrace (inp : DownloadInput) : Nat → List PageMetadata → List DocOp
  | _, [] => []
  | i, m :: rest => specPageTrace inp i m ++ specPagesTrace inp (i + 1) rest

/-- Whether the trace draws a (non-redact) primitive for the element id. -/
def elemDrawnIn (t : List DocOp) (i : String) : Bool :=
  t.any fun op => match op with
    | DocOp.drawElem j _ => j == i
    | _ => false

/-- Whether the trace draws a redact rectangle for the element id. -/
def redactDrawnIn (t : List DocOp) (i : String) : Bool :=
  t.any fun op => match op with
    | DocOp.drawRedact j => j == i
    | _ => false

/-- The structural part of claim C1: for every non-empty page sequence the
trace is create, then the spec's per-page blocks in order, then save. -/
def exportStructureOK (inp : DownloadInput) : Prop :=
  inp.pageSequence ≠ [] →
    handleDownloadTrace inp
      = DocOp.create :: specPagesTrace inp 0 inp.pageSequence ++ [DocOp.save]

/-- The element part of claim C1 as stated: every non-redact element of an
exported page gets a drawn primitive. -/
def elementsAllDrawn (inp : DownloadInput) : Prop :=
  ∀ el ∈ inp.elements, (∃ m ∈ inp.pageSequence, el.pageId = m.id) →
    el.type ≠ ToolMode.redact → elemDrawnIn (handleDownloadTrace inp) el.id = true

/-- The element part of claim C1 as amended: every non-redact element of a
drawable kind of an exported page gets a drawn primitive. -/
def drawableElementsDrawn (inp : DownloadInput) : Prop :=
  ∀ el ∈ inp.elements, (∃ m ∈ inp.pageSequence, el.pageId = m.id) →
    (drawableKind el).isSome = true →
    elemDrawnIn (handleDownloadTrace inp) el.id = true

/-- The redact part of claim C1: every redact element of an exported page
gets a drawn redact rectangle. -/
def redactsAllDrawn (inp : DownloadInput) : Prop :=
  ∀ el ∈ inp.elements, (∃ m ∈ inp.pageSequence, el.pageId = m.id) →
    el.type = ToolMode.redact → redactDrawnIn (handleDownloadTrace inp) el.id = true

theorem copyOrBlankOp_eq_spec (sp : Option Nat) (meta : PageMetadata) :
    copyOrBlankOp sp meta = specCopyOrBlank sp meta := by
  unfold copyOrBlankOp specCopyOrBlank
  cases sp with
  | none =>
    simp only [Option.getD_none, Nat.cast_zero]
    split_ifs <;> first | rfl | omega
  | some n =>
    simp only [Option.getD_some]
    split_ifs <;> first | rfl | omega

theorem filterMap_redact_eq (l : List EditorElement) :
    l.filterMap (fun el =>
        if el.type = ToolMode.redact then none
        else (drawableKind el).map (fun k => DocOp.drawElem el.id k))
      = (l.filter (fun el => el.type ≠ ToolMode.redact)).filterMap
          (fun el => (drawableKind el).map (fun k => DocOp.drawElem el.id k)) := by
  induction l with
  | nil => rfl
  | cons a t ih =>
    by_cases h : a.type = ToolMode.redact
    · simp [List.filterMap_cons, List.filter_cons, h, ih]
    · simp [List.filterMap_cons, List.filter_cons, h, ih]

theorem pageTrace_eq_spec (inp : DownloadInput) (i : Nat) (meta : PageMetadata) :
    pageTrace inp i meta = specPageTrace inp i meta := by
  unfold pageTrace specPageTrace
  dsimp only
  rw [copyOrBlankOp_eq_spec, filterMap_redact_eq]

theorem pagesTrace_eq_spec (inp : DownloadInput) :
    ∀ (i : Nat) (seq : List PageMetadata),
      pagesTrace inp i seq = specPagesTrace inp i seq := by
  intro i seq
  induction seq generalizing i with
  | nil => rfl
  | cons m rest ih =>
    show pageTrace inp i m ++ pagesTrace inp (i + 1) rest
      = specPageTrace inp i m ++ specPagesTrace inp (i + 1) rest
    rw [pageTrace_eq_spec, ih]

theorem drawableKind_ne_redact {el : EditorElement} {k : ElemKind}
    (h : drawableKind el = some k) : ¬ el.type = ToolMode.redact := by
  intro hty
  rw [drawableKind.eq_def, hty] at h
  cases h

theorem elemDrawnIn_append (a b : List DocOp) (i : String) :
    elemDrawnIn (a ++ b) i = (elemDrawnIn a i || elemDrawnIn b i) :=
  List.any_append

theorem redactDrawnIn_append (a b : List DocOp) (i : String) :
    redactDrawnIn (a ++ b) i = (redactDrawnIn a i || redactDrawnIn b i) :=
  List.any_append

theorem elemDrawn_pageTrace {inp : DownloadInput} {m : PageMetadata}
    {el : EditorElement} (hmem : el ∈ inp.elements) (hpid : el.pageId = m.id)
    {k : ElemKind} (hk : drawableKind el = some k) (i : Nat) :
    elemDrawnIn (pageTrace inp i m) el.id = true := by
  unfold pageTrace elemDrawnIn
  dsimp only
  apply List.any_eq_true.mpr
  refine ⟨DocOp.drawElem el.id k, ?_, by simp⟩
  have hel2 : el ∈ inp.elements.filter (fun el => el.pageId = m.id) :=
    List.mem_filter.mpr ⟨hmem, by simp [hpid]⟩
  have hin : DocOp.drawElem el.id k
      ∈ (inp.elements.filter (fun el => el.pageId = m.id)).filterMap (fun el =>
          if el.type = ToolMode.redact then none
          else (drawableKind el).map (fun k => DocOp.drawElem el.id k)) := by
    apply List.mem_filterMap.mpr
    exact ⟨el, hel2, by simp [drawableKind_ne_redact hk, hk]⟩
  simp only [List.mem_append]
  exact Or.inl (Or.inr hin)

theorem redactDrawn_pageTrace {inp : DownloadInput} {m : PageMetadata}
    {el : EditorElement} (hmem : el ∈ inp.elements) (hpid : el.pageId = m.id)
    (hty : el.type = ToolMode.redact) (i : Nat) :
    redactDrawnIn (pageTrace inp i m) el.id = true := by
  unfold pageTrace redactDrawnIn
  dsimp only
  apply List.any_eq_true.mpr
  refine ⟨DocOp.drawRedact el.id, ?_, by simp⟩
  have hel2 : el ∈ inp.elements.filter (fun el => el.pageId = m.id) :=
    List.mem_filter.mpr ⟨hmem, by simp [hpid]⟩
  have hin : DocOp.drawRedact el.id
      ∈ ((inp.elements.filter (fun el => el.pageId = m.id)).filter
            (fun el => el.type = ToolMode.redact)).map (fun el => DocOp.drawRedact el.id) :=
    List.mem_map.mpr ⟨el, List.mem_filter.mpr ⟨hel2, by simp [hty]⟩, rfl⟩
  simp only [List.mem_append]
  exact Or.inr hin

theorem elemDrawn_pagesTrace {inp : DownloadInput} {m : PageMetadata}
    {el : EditorElement} (hmem : el ∈ inp.elements) (hpid : el.pageId = m.id)
    {k : ElemKind} (hk : drawableKind el = some k) :
    ∀ (i : Nat) (seq : List PageMetadata), m ∈ seq →
      elemDrawnIn (pagesTrace inp i seq) el.id = true := by
  intro i seq
  induction seq generalizing i with
  | nil =>
    intro hseq
    cases hseq
  | cons a rest ih =>
    intro hseq
    show elemDrawnIn (pageTrace inp i a ++ pagesTrace inp (i + 1) rest) el.id = true
    rw [elemDrawnIn_append]
    rcases List.mem_cons.mp hseq with heq | hmem2
    · rw [← heq]
      rw [elemDrawn_pageTrace hmem hpid hk i]
      rfl
    · rw [ih (i + 1) hmem2]
      simp

theorem redactDrawn_pagesTrace {inp : DownloadInput} {m : PageMetadata}
    {el : EditorElement} (hmem : el ∈ inp.elements) (hpid : el.pageId = m.id)
    (hty : el.type = ToolMode.redact) :
    ∀ (i : Nat) (seq : List PageMetadata), m ∈ seq →
      redactDrawnIn (pagesTrace inp i seq) el.id = true := by
  intro i seq
  induction seq generalizing i with
  | nil =>
    intro hseq
    cases hseq
  | cons a rest ih =>
    intro hseq
    show redactDrawnIn (pageTrace inp i a ++ pagesTrace inp (i + 1) rest) el.id = true
    rw [redactDrawnIn_append]
    rcases List.mem_cons.mp hseq with heq | hmem2
    · rw [← heq]
      rw [redactDrawn_pageTrace hmem hpid hty i]
      rfl
    · rw [ih (i + 1) hmem2]
      simp

/-- A freehand pen-stroke element on page "p": drawn on screen but, having no
branch in the export if-chain, never exported. -/
def penElement : EditorElement :=
  { baseElement with id := "pen1", type := ToolMode.draw,
                     points := some [(0, 0), (5, 5), (9, 3)] }

/-- The download input exhibiting the gap in claim C1: one blank page that
carries one pen-stroke element. -/
def cinpC1 : DownloadInput :=
  { pageSequence := [{ id := "p", originalIndex := -1, rotationDeg := 0 }],
    elements := [penElement], sourcePages := none,
    numberingEnabled := false, watermark := "" }

/-- Counterexample to claim C1 as stated: on `cinpC1` the trace is
`[create, addBlank, save]` and draws no primitive for the non-redact
pen-stroke element, so "draws each non-redact element" fails. -/
theorem claim_C1_counterexample :
    ¬ (exportStructureOK cinpC1 ∧ elementsAllDrawn cinpC1 ∧ redactsAllDrawn cinpC1) := by
  intro h
  have h2 := h.2.1 penElement (by decide)
    ⟨{ id := "p", originalIndex := -1, rotationDeg := 0 }, by decide, rfl⟩
    (by decide)
  exact absurd h2 (by decide)

/-- Claim C1 (amended): for every non-empty page sequence the download trace
is create, then per page in sequence order the copy (blank when the
`originalIndex` is `-1` or out of range of the source), the page numbers, the
watermark, the drawable non-redact element primitives, the redact rectangles,
and finally save; every drawable non-redact element and every redact element
of an exported page is drawn (freehand draw/highlight strokes, eraser marks
and images without a source produce no export primitive). -/
theorem claim_C1_download_trace (inp : DownloadInput) :
    exportStructureOK inp ∧ drawableElementsDrawn inp ∧ redactsAllDrawn inp := by
  refine ⟨?_, ?_, ?_⟩
  · intro hne
    unfold handleDownloadTrace
    rw [if_neg hne, pagesTrace_eq_spec]
  · intro el hel hpage hk
    obtain ⟨m, hmseq, hmid⟩ := hpage
    obtain ⟨k, hk2⟩ := Option.isSome_iff_exists.mp hk
    have hne : inp.pageSequence ≠ [] := List.ne_nil_of_mem hmseq
    unfold handleDownloadTrace
    rw [if_neg hne]
    show elemDrawnIn (DocOp.create :: pagesTrace inp 0 inp.pageSequence ++ [DocOp.save])
      el.id = true
    rw [List.cons_append, elemDrawnIn]
    rw [List.any_cons]
    show (false || _) = true
    rw [Bool.false_or]
    rw [List.any_append]
    have hmain := elemDrawn_pagesTrace hel hmid hk2 0 inp.pageSequence hmseq
    rw [elemDrawnIn] at hmain
    rw [hmain]
    rfl
  · intro el hel hpage hty
    obtain ⟨m, hmseq, hmid⟩ := hpage
    have hne : inp.pageSequence ≠ [] := List.ne_nil_of_mem hmseq
    unfold handleDownloadTrace
    rw [if_neg hne]
    show redactDrawnIn (DocOp.create :: pagesTrace inp 0 inp.pageSequence ++ [DocOp.save])
      el.id = true
    rw [List.cons_append, redactDrawnIn]
    rw [List.any_cons]
    show (false || _) = true
    rw [Bool.false_or]
    rw [List.any_append]
    have hmain := redactDrawn_pagesTrace hel hmid hty 0 inp.pageSequence hmseq
    rw [redactDrawnIn] at hmain
    rw [hmain]
    rfl

/-- The download input used by the C1 witness: one blank page carrying the
base rectangle element, with numbering and a watermark switched on. -/
def winpC1 : DownloadInput :=
  { pageSequence := [{ id := "p", originalIndex := -1, rotationDeg := 0 }],
    elements := [baseElement], sourcePages := none,
    numberingEnabled := true, watermark := "W" }

/-- Witness for C1 on a concrete input with a rectangle element. -/
theorem claim_C1_download_trace_witness :
    elemDrawnIn (handleDownloadTrace winpC1) baseElement.id = true :=
  (claim_C1_download_trace winpC1).2.1 baseElement (by decide)
    ⟨{ id := "p", originalIndex := -1, rotationDeg := 0 }, by decide, rfl⟩ (by rfl)

/-! ## Alerting on wrapped library-call failures (C3) -/

/-- One wrapped PDF-library call site of a top-level operation: its name and
whether a failure of the call is caught by an inner handler that swallows it
(the operation continues without an alert). -/
structure CallSpec where
  name : String
  innerCaught : Bool
deriving DecidableEq, Repr

/-- Run the call sequence of a top-level operation under a failure profile:
the result is (some call failed, an alert was shown).  A failure of an
inner-caught call is swallowed and execution continues; any other failure
aborts into the operation's outer catch block, which shows the alert. -/
def runWrapped (calls : List CallSpec) (fails : String → Bool) : Bool × Bool :=
  match calls with
  | [] => (false, false)
  | c :: rest =>
    if fails c.name then
      if c.innerCaught then (true, (runWrapped rest fails).2)
      else (true, true)
    else runWrapped rest fails

/-- The wrapped calls of `handleDownload` (part_001 lines 950-1082), in
execution order.  `copyPages` failures are caught at lines 978-980 (blank-page
fallback) and image embedding failures at lines 1051-1055 (`catch (e) {}`);
every other failure reaches the outer catch at line 1076, which alerts. -/
def handleDownloadCalls (hasSource hasCopyPage hasImageElem : Bool) : List CallSpec :=
  (if hasSource then [{ name := "PDFDocument.load", innerCaught := false }] else [])
    ++ [{ name := "PDFDocument.create", innerCaught := false },
        { name := "embedFont", innerCaught := false }]
    ++ (if hasCopyPage then [{ name := "copyPages", innerCaught := true }] else [])
    ++ [{ name := "addPage", innerCaught := false },
        { name := "drawPrimitives", innerCaught := false }]
    ++ (if hasImageElem then [{ name := "embedImage", innerCaught := true }] else [])
    ++ [{ name := "save", innerCaught := false }]

/-- The wrapped calls of `flattenPDF` (part_001 lines 810-948): the same loop
as the download, followed by the reload of the flattened bytes. -/
def flattenPDFCalls (hasSource hasCopyPage hasImageElem : Bool) : List CallSpec :=
  handleDownloadCalls hasSource hasCopyPage hasImageElem
    ++ [{ name := "getDocument", innerCaught := false }]

/-- The wrapped calls of `handleFileUpload` (part_001 lines 610-645): all are
inside the single try whose catch alerts "Error loading PDF". -/
def handleFileUploadCalls : List CallSpec :=
  [{ name := "getDocument", innerCaught := false },
   { name := "getPage", innerCaught := false },
   { name := "getTextContent", innerCaught := false }]

/-- The wrapped calls of `mergePdfs` (PDFMergeTool.tsx lines 54-85): all are
inside the single try whose catch alerts "Failed to merge PDFs...". -/
def mergePdfsCalls : List CallSpec :=
  [{ name := "PDFDocument.create", innerCaught := false },
   { name := "PDFDocument.load", innerCaught := false },
   { name := "copyPages", innerCaught := false },
   { name := "addPage", innerCaught := false },
   { name := "save", innerCaught := false }]

/-- The wrapped calls of `compressPDF` (PDFCompressTool.tsx lines 53-116):
all are inside the single try whose catch alerts. -/
def compressPDFCalls : List CallSpec :=
  [{ name := "getDocument", innerCaught := false },
   { name := "getPage", innerCaught := false },
   { name := "render", innerCaught := false },
   { name := "embedJpg", innerCaught := false },
   { name := "addPage", innerCaught := false },
   { name := "drawImage", innerCaught := false },
   { name := "save", innerCaught := false }]

theorem runWrapped_alert_of_uncaught (calls : List CallSpec) (fails : String → Bool)
    (h : calls.any (fun c => fails c.name && !c.innerCaught) = true) :
    (runWrapped calls fails).2 = true := by
  induction calls with
  | nil => cases h
  | cons c rest ih =>
    rw [List.any_cons] at h
    unfold runWrapped
    by_cases hf : fails c.name
    · rw [if_pos hf]
      by_cases hc : c.innerCaught
      · rw [if_pos hc]
        simp only [hf, hc, Bool.true_and, Bool.not_true, Bool.false_or] at h
        exact ih h
      · rw [if_neg hc]
    · rw [if_neg hf]
      simp only [hf, Bool.false_and, Bool.false_or] at h
      exact ih h

theorem runWrapped_alert_of_failure_all_uncaught (calls : List CallSpec)
    (fails : String → Bool) (hall : ∀ c ∈ calls, c.innerCaught = false)
    (h : (runWrapped calls fails).1 = true) :
    (runWrapped calls fails).2 = true := by
  induction calls with
  | nil => cases h
  | cons c rest ih =>
    unfold runWrapped at h ⊢
    by_cases hf : fails c.name
    · rw [if_pos hf] at h ⊢
      rw [hall c (List.mem_cons_self c rest)] at h ⊢
      rw [if_neg (by simp)] at h ⊢
    · rw [if_neg hf] at h ⊢
      exact ih (fun c2 hc2 => hall c2 (List.mem_cons_of_mem c hc2)) h

theorem runWrapped_failure_of_alert (calls : List CallSpec) (fails : String → Bool)
    (h : (runWrapped calls fails).2 = true) :
    (runWrapped calls fails).1 = true := by
  induction calls with
  | nil => cases h
  | cons c rest ih =>
    unfold runWrapped at h ⊢
    by_cases hf : fails c.name
    · rw [if_pos hf] at h ⊢
      by_cases hc : c.innerCaught
      · rw [if_pos hc] at h ⊢
      · rw [if_neg hc] at h ⊢
    · rw [if_neg hf] at h ⊢
      exact ih h

/-- Counterexample to claim C3 as stated: with an image element present, a
failure of the image-embedding call during `handleDownload` is a wrapped
library-call failure (`.1 = true`) that is swallowed by the inner
`catch (e) {}` and produces no alert (`.2 = false`). -/
theorem claim_C3_counterexample :
    ¬ ((runWrapped (handleDownloadCalls true true true)
          (fun n => n == "embedImage")).1 = true →
       (runWrapped (handleDownloadCalls true true true)
          (fun n => n == "embedImage")).2 = true) := by
  decide

/-- Claim C3 (amended): a failure of any wrapped library call reachable from
a user action produces a user-facing alert, except that in `handleDownload`
and `flattenPDF` a `copyPages` failure (replaced by a blank page) and an image
embedding failure (element skipped) are caught and swallowed without an
alert; loading, merging and compressing alert on every failure, and an alert
is only shown when some call failed. -/
theorem claim_C3_alerts (fails : String → Bool) :
    (∀ hs hc hi : Bool,
      (handleDownloadCalls hs hc hi).any (fun c => fails c.name && !c.innerCaught) = true →
      (runWrapped (handleDownloadCalls hs hc hi) fails).2 = true) ∧
    (∀ hs hc hi : Bool,
      (flattenPDFCalls hs hc hi).any (fun c => fails c.name && !c.innerCaught) = true →
      (runWrapped (flattenPDFCalls hs hc hi) fails).2 = true) ∧
    ((runWrapped handleFileUploadCalls fails).1 = true →
      (runWrapped handleFileUploadCalls fails).2 = true) ∧
    ((runWrapped mergePdfsCalls fails).1 = true →
      (runWrapped mergePdfsCalls fails).2 = true) ∧
    ((runWrapped compressPDFCalls fails).1 = true →
      (runWrapped compressPDFCalls fails).2 = true) ∧
    (∀ calls : List CallSpec, (runWrapped calls fails).2 = true →
      (runWrapped calls fails).1 = true) := by
  refine ⟨?_, ?_, ?_, ?_, ?_, ?_⟩
  · intro hs hc hi h
    exact runWrapped_alert_of_uncaught _ _ h
  · intro hs hc hi h
    exact runWrapped_alert_of_uncaught _ _ h
  · intro h
    exact runWrapped_alert_of_failure_all_uncaught _ _ (by decide) h
  · intro h
    exact runWrapped_alert_of_failure_all_uncaught _ _ (by decide) h
  · intro h
    exact runWrapped_alert_of_failure_all_uncaught _ _ (by decide) h
  · intro calls h
    exact runWrapped_failure_of_alert calls fails h

/-- Witness for C3: a failing `save` during the download produces an alert. -/
theorem claim_C3_alerts_witness :
    (runWrapped (handleDownloadCalls true true true) (fun n => n == "save")).2 = true :=
  (claim_C3_alerts (fun n => n == "save")).1 true true true (by decide)
